import Mathlib

/-!
# ImpactX particle diagnostics: `impactx::diagnostics::DiagnosticOutput`

Shallow embedding of `src/particles/diagnostics/DiagnosticOutput.cpp` and the
properties of the text it writes.

* `amrex::ParticleReal` is a type parameter `R`; the stream's rendering of a
  real value (`operator<<`) is a parameter `fmt : R → String`.
* The output stream `file_handler` is the list of texts inserted so far, one
  entry per output statement of the source (each ends in a newline).
* The function is stateful in two places, both passed explicitly: the files on
  disk and the `ParmParse` table.
-/

namespace impactx

/-! ## Data model -/

/-- Modelled from the spec: `OutputType` is declared in `DiagnosticOutput.H`,
which is not part of the sources at hand. Its three named modes are the ones
the routine compares against. A C++ enumeration object can also carry a value
that is none of its enumerators; such a value is `unlisted raw`. -/
inductive OutputType where
  | PrintParticles
  | PrintNonlinearLensInvariants
  | PrintRefParticle
  | unlisted (raw : Int)
deriving DecidableEq, Repr

/-- Modelled from the spec: the named real components of the structure of
arrays (`RealSoA` of the particle container header); only the three that the
routine reads are listed. -/
inductive RealSoA where
  | ux
  | uy
  | pt
deriving DecidableEq, Repr

/-- Array-of-structs particle (`ImpactXParticleContainer::ParticleType`):
`pos(0)`, `pos(1)`, `pos(2)`, the rank-local `id()` and the owning rank
`cpu()`. -/
structure ParticleType (R : Type) where
  pos : Fin 3 → R
  id : Nat
  cpu : Nat

/-- What the particle iterator `pti` exposes at one tile: `numParticles()`,
the data pointer of the array of structs and, per real component, the data
pointer of the structure of arrays. A pointer is a map from the index. -/
structure ParticleTile (R : Type) where
  numParticles : Nat
  aos : Nat → ParticleType R
  soa_real : RealSoA → Nat → R

/-- Reference particle (`RefPart`), the fields the routine reads. -/
structure RefPart (R : Type) where
  s : R
  x : R
  y : R
  z : R
  t : R
  px : R
  py : R
  pz : R
  pt : R

/-- The host-side particle buffer `tmp`: `finestLevel()` and, for each level,
the tiles in the order the iterator `ParIt pti(tmp, lev)` yields them. -/
structure HostBuffer (R : Type) where
  finestLevel : Int
  tiles : Nat → List (ParticleTile R)

/-- The particle container `pc` as the routine sees it: its levels and tiles
and the single reference particle `GetRefParticle()`. -/
structure ImpactXParticleContainer (R : Type) where
  finestLevel : Int
  tiles : Nat → List (ParticleTile R)
  refParticle : RefPart R

/-- Modelled from the spec: `make_alike` followed by `copyParticles(pc, local)`
(container code outside the sources at hand). Section 4.1 step 3: the staging
copy preserves per-particle field values and level/tile membership. -/
def copyParticles {R : Type} (pc : ImpactXParticleContainer R) : HostBuffer R :=
  { finestLevel := pc.finestLevel, tiles := pc.tiles }

/-- Modelled from the spec: the global identity resolver
`ablastr::particles::localIDtoGlobal` (not part of the sources at hand).
Section 2: it "combines a rank-local particle counter and owning-rank number
into one process-wide unique 64-bit identity". The model packs the counter into
the low 32 bits and the rank into the high 32 bits of a 64-bit word. -/
def localIDtoGlobal (id cpu : Nat) : Nat :=
  (id + cpu * 2 ^ 32) % 2 ^ 64

/-! ## Collaborators with state -/

/-- The `ParmParse` table: the value stored under a full parameter name. -/
abbrev ParmTable (R : Type) := String → Option R

/-- Modelled from the spec: `amrex::ParmParse::queryAdd` on a `ParmParse`
object with name space `pfx`. Section 6: an optional scalar lookup with a fixed
default if absent. The caller passes the default in `ref`; a stored value
replaces it, otherwise the default is kept and recorded in the table. -/
def ParmParse.queryAdd {R : Type} (pfx name : String) (ref : R) (table : ParmTable R) :
    R × ParmTable R :=
  match table (pfx ++ "." ++ name) with
  | some v => (v, table)
  | none => (ref, Function.update table (pfx ++ "." ++ name) (some ref))

/-- Modelled from the spec: `amrex::AllPrintToFile`. Section 4.1 step 1: the
stream is opened in append-or-create mode bound to the given path (the path
that the handler derives from `file_name` is identified with `file_name`).
`ss` holds the texts inserted so far, one entry per output statement. -/
structure AllPrintToFile where
  file_name : String
  ss : List String

/-- Constructor `AllPrintToFile file_handler(file_name)`. -/
def AllPrintToFile.mk_open (file_name : String) : AllPrintToFile :=
  { file_name := file_name, ss := [] }

/-- One output statement `file_handler << ... << "\n"` inserting `text`. -/
def AllPrintToFile.put (fh : AllPrintToFile) (text : String) : AllPrintToFile :=
  { fh with ss := fh.ss ++ [text] }

/-- End of the handler's scope: the inserted text goes after the bytes the file
already holds (a file that does not exist holds no bytes). -/
def AllPrintToFile.close (fh : AllPrintToFile) (files : String → String) : String → String :=
  Function.update files fh.file_name (files fh.file_name ++ String.join fh.ss)

/-- State outside the routine: the files on disk and the `ParmParse` table. -/
structure Runtime (R : Type) where
  files : String → String
  parms : ParmTable R

/-- The counting loop `for (int i = 0; i < n; ++i) body`, the loop state passed
along. -/
def forRange {σ : Type} (n : Nat) (body : Nat → σ → σ) (s : σ) : σ :=
  (List.range n).foldl (fun acc i => body i acc) s

/-- The tile loop `for (ParIt pti(tmp, lev); pti.isValid(); ++pti) body`, the
loop state passed along. -/
def forTiles {R σ : Type} (tiles : List (ParticleTile R)) (body : ParticleTile R → σ → σ)
    (s : σ) : σ :=
  tiles.foldl (fun acc pti => body pti acc) s

/-- The invariant calculator of `NonlinearLensInvariants.H` (not part of the
sources at hand), taken as a parameter: `nli alpha beta tn cn` is the object
constructed from the four parameters and `nli alpha beta tn cn x y px py` its
application, returning the pair `(H, I)`. -/
abbrev NonlinearLensInvariants (R : Type) := R → R → R → R → R → R → R → R → R × R

/-! ## The routine -/

section Routine

variable {R : Type} [OfScientific R]

/-- Body of the loop over all particle boxes (source lines 61 to 165) at the
tile `pti`; the loop state is the stream and the `ParmParse` table.
`nli` is the invariant calculator. -/
def tileBody (fmt : R → String) (nli : NonlinearLensInvariants R)
    (pc : ImpactXParticleContainer R) (otype : OutputType) (step : Int)
    (pti : ParticleTile R) (st : AllPrintToFile × ParmTable R) :
    AllPrintToFile × ParmTable R :=
  let np := pti.numParticles
  let aos_ptr := pti.aos
  let part_px := pti.soa_real RealSoA.ux
  let part_py := pti.soa_real RealSoA.uy
  let part_pt := pti.soa_real RealSoA.pt
  let st1 : AllPrintToFile × ParmTable R :=
    if otype = OutputType.PrintParticles then
      (forRange np (fun i file_handler =>
          let p := aos_ptr i
          let x := p.pos 0
          let y := p.pos 1
          let t := p.pos 2
          let global_id := localIDtoGlobal p.id p.cpu
          let px := part_px i
          let py := part_py i
          let pt := part_pt i
          file_handler.put
            (toString global_id ++ " "
              ++ fmt x ++ " " ++ fmt y ++ " " ++ fmt t ++ " "
              ++ fmt px ++ " " ++ fmt py ++ " " ++ fmt pt ++ "\n")) st.1, st.2)
    else if otype = OutputType.PrintNonlinearLensInvariants then
      let qa := ParmParse.queryAdd "diag" "alpha" (0.0 : R) st.2
      let alpha := qa.1
      let qb := ParmParse.queryAdd "diag" "beta" (1.0 : R) qa.2
      let beta := qb.1
      let qt := ParmParse.queryAdd "diag" "tn" (0.4 : R) qb.2
      let tn := qt.1
      let qc := ParmParse.queryAdd "diag" "cn" (0.01 : R) qt.2
      let cn := qc.1
      let nonlinear_lens_invariants := nli alpha beta tn cn
      (forRange np (fun i file_handler =>
          let p := aos_ptr i
          let x := p.pos 0
          let y := p.pos 1
          let global_id := localIDtoGlobal p.id p.cpu
          let px := part_px i
          let py := part_py i
          let HI_out := nonlinear_lens_invariants x y px py
          file_handler.put
            (toString global_id ++ " "
              ++ fmt HI_out.1 ++ " " ++ fmt HI_out.2 ++ "\n")) st.1, qc.2)
    else st
  if otype = OutputType.PrintRefParticle then
    let ref_part := pc.refParticle
    let s := ref_part.s
    let x := ref_part.x
    let y := ref_part.y
    let z := ref_part.z
    let t := ref_part.t
    let px := ref_part.px
    let py := ref_part.py
    let pz := ref_part.pz
    let pt := ref_part.pt
    (st1.1.put
      (toString step ++ " " ++ fmt s ++ " "
        ++ fmt x ++ " " ++ fmt y ++ " " ++ fmt z ++ " " ++ fmt t ++ " "
        ++ fmt px ++ " " ++ fmt py ++ " " ++ fmt pz ++ " " ++ fmt pt ++ "\n"), st1.2)
  else st1

/-- The routine up to the end of its body (source lines 34 to 167): the stream
`file_handler` and the `ParmParse` table when the closing brace is reached. -/
def DiagnosticOutput.body (fmt : R → String) (nli : NonlinearLensInvariants R)
    (pc : ImpactXParticleContainer R) (otype : OutputType) (file_name : String)
    (step : Int) (append : Bool) (parms : ParmTable R) : AllPrintToFile × ParmTable R :=
  let file_handler := AllPrintToFile.mk_open file_name
  let file_handler :=
    if !append then
      if otype = OutputType.PrintParticles then
        file_handler.put "id x y t px py pt\n"
      else if otype = OutputType.PrintNonlinearLensInvariants then
        file_handler.put "id H I\n"
      else if otype = OutputType.PrintRefParticle then
        file_handler.put "step s x y z t px py pz pt\n"
      else file_handler
    else file_handler
  let tmp := copyParticles pc
  let nLevel := tmp.finestLevel
  forRange (nLevel + 1).toNat (fun lev st =>
    forTiles (tmp.tiles lev) (tileBody fmt nli pc otype step) st) (file_handler, parms)

/-- The routine `DiagnosticOutput(pc, otype, file_name, step, append)`. The
source has no failure path of its own: the body runs to its closing brace, the
handler goes out of scope, and the call returns. -/
def DiagnosticOutput (fmt : R → String) (nli : NonlinearLensInvariants R)
    (pc : ImpactXParticleContainer R) (otype : OutputType) (file_name : String)
    (step : Int) (append : Bool) (w : Runtime R) : Except String (Runtime R) :=
  let out := DiagnosticOutput.body fmt nli pc otype file_name step append w.parms
  Except.ok { files := out.1.close w.files, parms := out.2 }

/-- Texts one call inserts into its stream, in order. -/
def linesWritten (fmt : R → String) (nli : NonlinearLensInvariants R)
    (pc : ImpactXParticleContainer R) (otype : OutputType) (file_name : String)
    (step : Int) (append : Bool) (parms : ParmTable R) : List String :=
  (DiagnosticOutput.body fmt nli pc otype file_name step append parms).1.ss

/-! ## Vocabulary of the specification -/

/-- Refinement levels `0..finestLevel`, ascending. -/
def levels (pc : ImpactXParticleContainer R) : List Nat :=
  List.range (pc.finestLevel + 1).toNat

/-- Total number of particles over all levels `0..finestLevel` and all tiles of
each level. -/
def totalParticles (pc : ImpactXParticleContainer R) : Nat :=
  ((levels pc).map fun lev => ((pc.tiles lev).map fun tile => tile.numParticles).sum).sum

/-- Number of tiles over all levels `0..finestLevel`. -/
def tilesVisited (pc : ImpactXParticleContainer R) : Nat :=
  ((levels pc).map fun lev => (pc.tiles lev).length).sum

/-- Header text of each named mode (section 6 of the specification). -/
def headerText : OutputType → String
  | OutputType.PrintParticles => "id x y t px py pt\n"
  | OutputType.PrintNonlinearLensInvariants => "id H I\n"
  | OutputType.PrintRefParticle => "step s x y z t px py pz pt\n"
  | OutputType.unlisted _ => ""

/-- Raw-dump line of particle `i` of a tile: global id, x, y, t, px, py, pt. -/
def rawLine (fmt : R → String) (tile : ParticleTile R) (i : Nat) : String :=
  toString (localIDtoGlobal (tile.aos i).id (tile.aos i).cpu) ++ " "
    ++ fmt ((tile.aos i).pos 0) ++ " " ++ fmt ((tile.aos i).pos 1) ++ " "
    ++ fmt ((tile.aos i).pos 2) ++ " "
    ++ fmt (tile.soa_real RealSoA.ux i) ++ " " ++ fmt (tile.soa_real RealSoA.uy i) ++ " "
    ++ fmt (tile.soa_real RealSoA.pt i) ++ "\n"

/-- Raw-dump data lines of a container: levels ascending, tiles of each level in
container order, particle indices `0..np-1` of each tile ascending. -/
def rawDumpLines (fmt : R → String) (pc : ImpactXParticleContainer R) : List String :=
  (levels pc).flatMap fun lev =>
    (pc.tiles lev).flatMap fun tile =>
      (List.range tile.numParticles).map (rawLine fmt tile)

/-- Invariant parameters `(alpha, beta, tn, cn)` of a call: the value found in
the "diag" configuration, or the default when absent. -/
def invariantParms (parms : ParmTable R) : R × R × R × R :=
  ((parms "diag.alpha").getD 0.0, (parms "diag.beta").getD 1.0,
    (parms "diag.tn").getD 0.4, (parms "diag.cn").getD 0.01)

/-- The pair `(H, I)` of particle `i` of a tile under the parameter tuple `q`. -/
def invariantsOf (nli : NonlinearLensInvariants R) (q : R × R × R × R)
    (tile : ParticleTile R) (i : Nat) : R × R :=
  nli q.1 q.2.1 q.2.2.1 q.2.2.2 ((tile.aos i).pos 0) ((tile.aos i).pos 1)
    (tile.soa_real RealSoA.ux i) (tile.soa_real RealSoA.uy i)

/-- Invariant line of particle `i` of a tile: global id, H, I. -/
def invariantLine (fmt : R → String) (nli : NonlinearLensInvariants R) (q : R × R × R × R)
    (tile : ParticleTile R) (i : Nat) : String :=
  toString (localIDtoGlobal (tile.aos i).id (tile.aos i).cpu) ++ " "
    ++ fmt (invariantsOf nli q tile i).1 ++ " " ++ fmt (invariantsOf nli q tile i).2 ++ "\n"

/-- Invariant data lines of a container under one parameter tuple `q`, in
traversal order. -/
def invariantLines (fmt : R → String) (nli : NonlinearLensInvariants R) (q : R × R × R × R)
    (pc : ImpactXParticleContainer R) : List String :=
  (levels pc).flatMap fun lev =>
    (pc.tiles lev).flatMap fun tile =>
      (List.range tile.numParticles).map (invariantLine fmt nli q tile)

/-- Reference-particle line: step, s, x, y, z, t, px, py, pz, pt. -/
def refLine (fmt : R → String) (step : Int) (ref_part : RefPart R) : String :=
  toString step ++ " " ++ fmt ref_part.s ++ " "
    ++ fmt ref_part.x ++ " " ++ fmt ref_part.y ++ " " ++ fmt ref_part.z ++ " "
    ++ fmt ref_part.t ++ " "
    ++ fmt ref_part.px ++ " " ++ fmt ref_part.py ++ " " ++ fmt ref_part.pz ++ " "
    ++ fmt ref_part.pt ++ "\n"

/-- Header lines of a call: the header text of a named mode unless appending. -/
def headerLines (otype : OutputType) (append : Bool) : List String :=
  if append then []
  else
    match otype with
    | OutputType.unlisted _ => []
    | m => [headerText m]

/-- Data lines that the visit of one tile adds, per mode, under the parameter
tuple `q`. -/
def tileLines (fmt : R → String) (nli : NonlinearLensInvariants R) (ref_part : RefPart R)
    (otype : OutputType) (step : Int) (q : R × R × R × R) (tile : ParticleTile R) :
    List String :=
  match otype with
  | OutputType.PrintParticles => (List.range tile.numParticles).map (rawLine fmt tile)
  | OutputType.PrintNonlinearLensInvariants =>
      (List.range tile.numParticles).map (invariantLine fmt nli q tile)
  | OutputType.PrintRefParticle => [refLine fmt step ref_part]
  | OutputType.unlisted _ => []

/-- Data lines of a call: the lines of every tile, levels ascending and tiles in
container order. -/
def dataLines (fmt : R → String) (nli : NonlinearLensInvariants R)
    (pc : ImpactXParticleContainer R) (otype : OutputType) (step : Int) (q : R × R × R × R) :
    List String :=
  (levels pc).flatMap fun lev =>
    (pc.tiles lev).flatMap (tileLines fmt nli pc.refParticle otype step q)

end Routine

/-! ## Concrete inputs -/

/-- Decimal literal `mantissa / 10 ^ exponent`, the real type of the examples. -/
structure Decimal where
  mantissa : Nat
  exponent : Nat
deriving DecidableEq, Repr

instance : OfScientific Decimal where
  ofScientific m s e := if s then { mantissa := m, exponent := e }
    else { mantissa := m * 10 ^ e, exponent := 0 }

/-- Drop trailing zeros of the fractional part. -/
def Decimal.strip : Nat → Nat → Nat × Nat
  | m, 0 => (m, 0)
  | m, e + 1 => if m % 10 = 0 then Decimal.strip (m / 10) e else (m, e + 1)

/-- Shortest decimal text of a decimal literal, which is what the stream prints
for the values of the examples (at most six significant digits): `1.0` gives
"1", `0.1` gives "0.1". -/
def Decimal.render (d : Decimal) : String :=
  let me := Decimal.strip d.mantissa d.exponent
  if me.2 = 0 then toString me.1
  else
    let frac := toString (me.1 % 10 ^ me.2)
    toString (me.1 / 10 ^ me.2) ++ "." ++ String.mk (List.replicate (me.2 - frac.length) '0')
      ++ frac

/-- A calculator for the examples, `H = x` and `I = y`; the routine treats the
calculator as a black box. -/
def exampleCalc : NonlinearLensInvariants Decimal :=
  fun _ _ _ _ x y _ _ => (x, y)

/-- The reference particle of the specification's second example:
`s=10, x=0, y=0, z=5, t=0, px=0, py=0, pz=1, pt=0`. -/
def exampleRef : RefPart Decimal :=
  { s := 10.0, x := 0.0, y := 0.0, z := 5.0, t := 0.0, px := 0.0, py := 0.0, pz := 1.0, pt := 0.0 }

/-- The tile of the specification's first example: one particle with
`local_id=3, owning_rank=2, x=1.0, y=2.0, t=0.0, px=0.1, py=0.2, pt=0.3`. -/
def exampleTile : ParticleTile Decimal :=
  { numParticles := 1
    aos := fun _ => { pos := ![1.0, 2.0, 0.0], id := 3, cpu := 2 }
    soa_real := fun c _ =>
      match c with
      | RealSoA.ux => 0.1
      | RealSoA.uy => 0.2
      | RealSoA.pt => 0.3 }

/-- A tile that holds no particle. -/
def emptyTile : ParticleTile Decimal :=
  { exampleTile with numParticles := 0 }

/-- One level, one tile, one particle. -/
def exampleContainer : ImpactXParticleContainer Decimal :=
  { finestLevel := 0
    tiles := fun lev => if lev = 0 then [exampleTile] else []
    refParticle := exampleRef }

/-- One level with an empty tile followed by the one-particle tile. -/
def gapContainer : ImpactXParticleContainer Decimal :=
  { finestLevel := 0
    tiles := fun lev => if lev = 0 then [emptyTile, exampleTile] else []
    refParticle := exampleRef }

/-- One level with two tiles of one particle each. -/
def twoTileContainer : ImpactXParticleContainer Decimal :=
  { finestLevel := 0
    tiles := fun lev => if lev = 0 then [exampleTile, exampleTile] else []
    refParticle := exampleRef }

/-- One level whose only tile holds no particle. -/
def emptyTileContainer : ImpactXParticleContainer Decimal :=
  { finestLevel := 0
    tiles := fun lev => if lev = 0 then [emptyTile] else []
    refParticle := exampleRef }

/-- No file on disk, nothing in the `ParmParse` table. -/
def freshRuntime : Runtime Decimal :=
  { files := fun _ => "", parms := fun _ => none }

/-! ## Loops and the stream -/

theorem forRange_put (n : Nat) (f : Nat → String) (fh : AllPrintToFile) :
    forRange n (fun i file_handler => AllPrintToFile.put file_handler (f i)) fh
      = { file_name := fh.file_name, ss := fh.ss ++ (List.range n).map f } := by
  induction n with
  | zero => simp [forRange]
  | succ k ih =>
    unfold forRange at ih ⊢
    rw [List.range_succ, List.foldl_append, ih]
    simp [AllPrintToFile.put, List.map_append]

/-- A loop whose body appends `g (P t) x` to the stream and keeps `P t` appends
the concatenation of these texts and keeps `P t`. -/
theorem fold_emit {α T π : Type} (P : T → π) (g : π → α → List String)
    (body : α → AllPrintToFile × T → AllPrintToFile × T)
    (h : ∀ x fh t, (body x (fh, t)).1 = { file_name := fh.file_name, ss := fh.ss ++ g (P t) x }
      ∧ P (body x (fh, t)).2 = P t)
    (xs : List α) : ∀ (fh : AllPrintToFile) (t : T),
    (xs.foldl (fun acc x => body x acc) (fh, t)).1
        = { file_name := fh.file_name, ss := fh.ss ++ xs.flatMap (g (P t)) }
      ∧ P (xs.foldl (fun acc x => body x acc) (fh, t)).2 = P t := by
  induction xs with
  | nil => intro fh t; simp
  | cons x rest ih =>
    intro fh t
    obtain ⟨h1, h2⟩ := h x fh t
    have hb : body x (fh, t) = ((body x (fh, t)).1, (body x (fh, t)).2) := rfl
    rw [List.foldl_cons, hb]
    obtain ⟨i1, i2⟩ := ih (body x (fh, t)).1 (body x (fh, t)).2
    rw [i1, i2, h2, h1]
    simp [List.flatMap_cons]

/-! ## The `ParmParse` table -/

theorem queryAdd_fst {R : Type} (pfx name : String) (ref : R) (table : ParmTable R) :
    (ParmParse.queryAdd pfx name ref table).1 = (table (pfx ++ "." ++ name)).getD ref := by
  unfold ParmParse.queryAdd
  cases h : table (pfx ++ "." ++ name) <;> simp

theorem queryAdd_snd_same {R : Type} (pfx name : String) (ref : R) (table : ParmTable R) :
    (ParmParse.queryAdd pfx name ref table).2 (pfx ++ "." ++ name)
      = some ((table (pfx ++ "." ++ name)).getD ref) := by
  unfold ParmParse.queryAdd
  cases h : table (pfx ++ "." ++ name) <;> simp [h]

theorem queryAdd_snd_other {R : Type} (pfx name : String) (ref : R) (table : ParmTable R) (key : String)
    (hk : key ≠ pfx ++ "." ++ name) :
    (ParmParse.queryAdd pfx name ref table).2 key = table key := by
  unfold ParmParse.queryAdd
  cases h : table (pfx ++ "." ++ name) <;> simp [Function.update_noteq hk]

section Lemmas

variable {R : Type} [OfScientific R]

/-- The table after the four lookups of one tile visit. -/
theorem invariantParms_after_queries (t : ParmTable R) :
    invariantParms
      (ParmParse.queryAdd "diag" "cn" (0.01 : R)
        (ParmParse.queryAdd "diag" "tn" (0.4 : R)
          (ParmParse.queryAdd "diag" "beta" (1.0 : R)
            (ParmParse.queryAdd "diag" "alpha" (0.0 : R) t).2).2).2).2
      = invariantParms t := by
  have ka : "diag.alpha" = "diag" ++ "." ++ "alpha" := by decide
  have kb : "diag.beta" = "diag" ++ "." ++ "beta" := by decide
  have kt : "diag.tn" = "diag" ++ "." ++ "tn" := by decide
  have kc : "diag.cn" = "diag" ++ "." ++ "cn" := by decide
  unfold invariantParms
  refine Prod.ext ?_ (Prod.ext ?_ (Prod.ext ?_ ?_))
  · simp only
    rw [queryAdd_snd_other _ _ _ _ _ (by decide), queryAdd_snd_other _ _ _ _ _ (by decide),
      queryAdd_snd_other _ _ _ _ _ (by decide), ka, queryAdd_snd_same]
    simp
  · simp only
    rw [queryAdd_snd_other _ _ _ _ _ (by decide), queryAdd_snd_other _ _ _ _ _ (by decide),
      kb, queryAdd_snd_same, queryAdd_snd_other _ _ _ _ _ (by decide)]
    simp
  · simp only
    rw [queryAdd_snd_other _ _ _ _ _ (by decide), kt, queryAdd_snd_same,
      queryAdd_snd_other _ _ _ _ _ (by decide), queryAdd_snd_other _ _ _ _ _ (by decide)]
    simp
  · simp only
    rw [kc, queryAdd_snd_same, queryAdd_snd_other _ _ _ _ _ (by decide),
      queryAdd_snd_other _ _ _ _ _ (by decide), queryAdd_snd_other _ _ _ _ _ (by decide)]
    simp

/-! ## One tile visit -/

theorem tileBody_fst (fmt : R → String) (nli : NonlinearLensInvariants R)
    (pc : ImpactXParticleContainer R) (otype : OutputType) (step : Int)
    (pti : ParticleTile R) (fh : AllPrintToFile) (t : ParmTable R) :
    (tileBody fmt nli pc otype step pti (fh, t)).1
      = { file_name := fh.file_name,
          ss := fh.ss ++ tileLines fmt nli pc.refParticle otype step (invariantParms t) pti } := by
  have ka : "diag.alpha" = "diag" ++ "." ++ "alpha" := by decide
  have kb : "diag.beta" = "diag" ++ "." ++ "beta" := by decide
  have kt : "diag.tn" = "diag" ++ "." ++ "tn" := by decide
  have kc : "diag.cn" = "diag" ++ "." ++ "cn" := by decide
  cases otype with
  | PrintParticles =>
    simp only [tileBody, tileLines, if_true, if_false, reduceCtorEq]
    rw [forRange_put]
    rfl
  | PrintNonlinearLensInvariants =>
    simp only [tileBody, tileLines, if_true, if_false, reduceCtorEq]
    rw [forRange_put]
    simp only [queryAdd_fst, queryAdd_snd_other _ _ _ _ _ (show "diag" ++ "." ++ "beta"
        ≠ "diag" ++ "." ++ "alpha" by decide),
      queryAdd_snd_other _ _ _ _ _ (show "diag" ++ "." ++ "tn" ≠ "diag" ++ "." ++ "alpha" by decide),
      queryAdd_snd_other _ _ _ _ _ (show "diag" ++ "." ++ "tn" ≠ "diag" ++ "." ++ "beta" by decide),
      queryAdd_snd_other _ _ _ _ _ (show "diag" ++ "." ++ "cn" ≠ "diag" ++ "." ++ "alpha" by decide),
      queryAdd_snd_other _ _ _ _ _ (show "diag" ++ "." ++ "cn" ≠ "diag" ++ "." ++ "beta" by decide),
      queryAdd_snd_other _ _ _ _ _ (show "diag" ++ "." ++ "cn" ≠ "diag" ++ "." ++ "tn" by decide)]
    simp only [invariantParms, ka, kb, kt, kc]
    rfl
  | PrintRefParticle =>
    simp only [tileBody, tileLines, if_true, if_false, reduceCtorEq]
    rfl
  | unlisted raw =>
    simp only [tileBody, tileLines, if_true, if_false, reduceCtorEq]
    simp

theorem tileBody_parms (fmt : R → String) (nli : NonlinearLensInvariants R)
    (pc : ImpactXParticleContainer R) (otype : OutputType) (step : Int)
    (pti : ParticleTile R) (fh : AllPrintToFile) (t : ParmTable R) :
    invariantParms (tileBody fmt nli pc otype step pti (fh, t)).2 = invariantParms t := by
  cases otype with
  | PrintParticles => simp only [tileBody, if_true, if_false, reduceCtorEq]
  | PrintNonlinearLensInvariants =>
    simp only [tileBody, if_true, if_false, reduceCtorEq]
    exact invariantParms_after_queries t
  | PrintRefParticle => simp only [tileBody, if_true, if_false, reduceCtorEq]
  | unlisted raw => simp only [tileBody, if_true, if_false, reduceCtorEq]

theorem tileBody_snd_of_ne (fmt : R → String) (nli : NonlinearLensInvariants R)
    (pc : ImpactXParticleContainer R) (otype : OutputType) (step : Int)
    (pti : ParticleTile R) (fh : AllPrintToFile) (t : ParmTable R)
    (hne : otype ≠ OutputType.PrintNonlinearLensInvariants) :
    (tileBody fmt nli pc otype step pti (fh, t)).2 = t := by
  cases otype with
  | PrintParticles => simp only [tileBody, if_true, if_false, reduceCtorEq]
  | PrintNonlinearLensInvariants => exact absurd rfl hne
  | PrintRefParticle => simp only [tileBody, if_true, if_false, reduceCtorEq]
  | unlisted raw => simp only [tileBody, if_true, if_false, reduceCtorEq]

/-! ## The traversal and the whole body -/

/-- The two nested loops, for any quantity `P` of the table that a tile visit
keeps and that determines the invariant parameters. -/
theorem traverse_spec {π : Type} (P : ParmTable R → π) (ip : π → R × R × R × R)
    (hip : ∀ t, ip (P t) = invariantParms t)
    (fmt : R → String) (nli : NonlinearLensInvariants R)
    (pc : ImpactXParticleContainer R) (otype : OutputType) (step : Int)
    (hP : ∀ pti fh t, P (tileBody fmt nli pc otype step pti (fh, t)).2 = P t)
    (n : Nat) (fh : AllPrintToFile) (t : ParmTable R) :
    (forRange n (fun lev st => forTiles (pc.tiles lev) (tileBody fmt nli pc otype step) st)
        (fh, t)).1
        = { file_name := fh.file_name,
            ss := fh.ss ++ (List.range n).flatMap fun lev =>
              (pc.tiles lev).flatMap
                (tileLines fmt nli pc.refParticle otype step (invariantParms t)) }
      ∧ P (forRange n (fun lev st => forTiles (pc.tiles lev) (tileBody fmt nli pc otype step) st)
        (fh, t)).2 = P t := by
  have inner : ∀ (lev : Nat) (fh : AllPrintToFile) (t : ParmTable R),
      (forTiles (pc.tiles lev) (tileBody fmt nli pc otype step) (fh, t)).1
          = { file_name := fh.file_name,
              ss := fh.ss ++ (fun q lev => (pc.tiles lev).flatMap
                (tileLines fmt nli pc.refParticle otype step (ip q))) (P t) lev }
        ∧ P (forTiles (pc.tiles lev) (tileBody fmt nli pc otype step) (fh, t)).2 = P t := by
    intro lev fh t
    exact fold_emit P (fun q tile => tileLines fmt nli pc.refParticle otype step (ip q) tile)
      (tileBody fmt nli pc otype step)
      (fun pti fh t => ⟨by rw [tileBody_fst]; simp only [hip], hP pti fh t⟩) (pc.tiles lev) fh t
  have outer := fold_emit P
    (fun q lev => (pc.tiles lev).flatMap (tileLines fmt nli pc.refParticle otype step (ip q)))
    (fun lev st => forTiles (pc.tiles lev) (tileBody fmt nli pc otype step) st)
    inner (List.range n) fh t
  simp only [hip] at outer
  exact outer

theorem header_stream (otype : OutputType) (file_name : String) (append : Bool) :
    (if (!append) = true then
        if otype = OutputType.PrintParticles then
          (AllPrintToFile.mk_open file_name).put "id x y t px py pt\n"
        else if otype = OutputType.PrintNonlinearLensInvariants then
          (AllPrintToFile.mk_open file_name).put "id H I\n"
        else if otype = OutputType.PrintRefParticle then
          (AllPrintToFile.mk_open file_name).put "step s x y z t px py pz pt\n"
        else AllPrintToFile.mk_open file_name
      else AllPrintToFile.mk_open file_name)
      = { file_name := file_name, ss := headerLines otype append } := by
  cases append <;> cases otype <;>
    simp [headerLines, headerText, AllPrintToFile.put, AllPrintToFile.mk_open]

theorem body_fst (fmt : R → String) (nli : NonlinearLensInvariants R)
    (pc : ImpactXParticleContainer R) (otype : OutputType) (file_name : String)
    (step : Int) (append : Bool) (parms : ParmTable R) :
    (DiagnosticOutput.body fmt nli pc otype file_name step append parms).1
      = { file_name := file_name,
          ss := headerLines otype append
            ++ dataLines fmt nli pc otype step (invariantParms parms) } := by
  unfold DiagnosticOutput.body
  simp only [header_stream, copyParticles]
  exact (traverse_spec invariantParms id (fun _ => rfl) fmt nli pc otype step
    (tileBody_parms fmt nli pc otype step) _ _ parms).1

theorem body_parms (fmt : R → String) (nli : NonlinearLensInvariants R)
    (pc : ImpactXParticleContainer R) (otype : OutputType) (file_name : String)
    (step : Int) (append : Bool) (parms : ParmTable R) :
    invariantParms (DiagnosticOutput.body fmt nli pc otype file_name step append parms).2
      = invariantParms parms := by
  unfold DiagnosticOutput.body
  simp only [header_stream, copyParticles]
  exact (traverse_spec invariantParms id (fun _ => rfl) fmt nli pc otype step
    (tileBody_parms fmt nli pc otype step) _ _ parms).2

theorem body_snd_of_ne (fmt : R → String) (nli : NonlinearLensInvariants R)
    (pc : ImpactXParticleContainer R) (otype : OutputType) (file_name : String)
    (step : Int) (append : Bool) (parms : ParmTable R)
    (hne : otype ≠ OutputType.PrintNonlinearLensInvariants) :
    (DiagnosticOutput.body fmt nli pc otype file_name step append parms).2 = parms := by
  unfold DiagnosticOutput.body
  simp only [header_stream, copyParticles]
  exact (traverse_spec id invariantParms (fun _ => rfl) fmt nli pc otype step
    (fun pti fh t => tileBody_snd_of_ne fmt nli pc otype step pti fh t hne) _ _ parms).2

theorem linesWritten_eq (fmt : R → String) (nli : NonlinearLensInvariants R)
    (pc : ImpactXParticleContainer R) (otype : OutputType) (file_name : String)
    (step : Int) (append : Bool) (parms : ParmTable R) :
    linesWritten fmt nli pc otype file_name step append parms
      = headerLines otype append ++ dataLines fmt nli pc otype step (invariantParms parms) := by
  unfold linesWritten
  rw [body_fst]

end Lemmas



/-! ## Rendering of integers -/

theorem digitChar_ne (k : Nat) (hk : k < 10) :
    Nat.digitChar k ≠ 'i' ∧ Nat.digitChar k ≠ 's' := by
  interval_cases k <;> decide

theorem toDigitsCore_head (fuel : Nat) : ∀ (n : Nat) (ds : List Char), 0 < fuel →
    ∃ k rest, k < 10 ∧ Nat.toDigitsCore 10 fuel n ds = Nat.digitChar k :: rest := by
  induction fuel with
  | zero => intro n ds h; omega
  | succ f ih =>
    intro n ds _
    rw [Nat.toDigitsCore]
    by_cases h0 : n / 10 = 0
    · exact ⟨n % 10, ds, Nat.mod_lt _ (by decide), by simp [h0]⟩
    · simp only [h0, if_false]
      rcases Nat.eq_zero_or_pos f with hf | hf
      · subst hf
        exact ⟨n % 10, ds, Nat.mod_lt _ (by decide), by simp [Nat.toDigitsCore]⟩
      · exact ih _ _ hf

/-- The decimal text of a natural number starts with a digit. -/
theorem natToString_head (n : Nat) :
    ∃ c rest, (toString n).data = c :: rest ∧ c ≠ 'i' ∧ c ≠ 's' := by
  obtain ⟨k, rest, hk, h⟩ := toDigitsCore_head (n + 1) n [] (Nat.succ_pos n)
  refine ⟨Nat.digitChar k, rest, ?_, digitChar_ne k hk⟩
  show (Nat.repr n).data = _
  simp [Nat.repr, Nat.toDigits, h, List.asString]

/-- The decimal text of an integer starts with a digit or a minus sign. -/
theorem intToString_head (n : Int) :
    ∃ c rest, (toString n).data = c :: rest ∧ c ≠ 'i' ∧ c ≠ 's' := by
  cases n with
  | ofNat m =>
    obtain ⟨c, rest, h, hc⟩ := natToString_head m
    exact ⟨c, rest, by simpa [toString, Int.repr] using h, hc⟩
  | negSucc m =>
    refine ⟨'-', (toString (m + 1)).data, ?_, by decide, by decide⟩
    simp [toString, Int.repr]

/-- A text that starts like a number is none of the three header texts. -/
theorem ne_headerText_of_head (s : String) (c : Char) (rest : List Char)
    (hs : s.data = c :: rest) (hi : c ≠ 'i') (hc : c ≠ 's') (m : OutputType)
    (hm : ∀ raw, m ≠ OutputType.unlisted raw) : s ≠ headerText m := by
  intro h
  have hd := congrArg String.data h
  rw [hs] at hd
  cases m with
  | PrintParticles =>
    have : (headerText OutputType.PrintParticles).data = 'i' :: "d x y t px py pt\n".data := rfl
    rw [this] at hd
    exact hi (List.cons.inj hd).1
  | PrintNonlinearLensInvariants =>
    have : (headerText OutputType.PrintNonlinearLensInvariants).data = 'i' :: "d H I\n".data := rfl
    rw [this] at hd
    exact hi (List.cons.inj hd).1
  | PrintRefParticle =>
    have : (headerText OutputType.PrintRefParticle).data
        = 's' :: "tep s x y z t px py pz pt\n".data := rfl
    rw [this] at hd
    exact hc (List.cons.inj hd).1
  | unlisted raw => exact hm raw rfl

theorem length_flatMap_sum {α β : Type} (l : List α) (f : α → List β) :
    (l.flatMap f).length = (l.map fun x => (f x).length).sum := by
  induction l with
  | nil => simp
  | cons a rest ih => simp [List.flatMap_cons, ih]

theorem flatMap_replicate {α β : Type} (l : List α) (k : α → Nat) (b : β) :
    (l.flatMap fun x => List.replicate (k x) b) = List.replicate (l.map k).sum b := by
  induction l with
  | nil => simp
  | cons a rest ih => simp [List.flatMap_cons, ih]

theorem head_append (a b : String)
    (h : ∃ c rest, a.data = c :: rest ∧ c ≠ 'i' ∧ c ≠ 's') :
    ∃ c rest, (a ++ b).data = c :: rest ∧ c ≠ 'i' ∧ c ≠ 's' := by
  obtain ⟨c, rest, h, hc⟩ := h
  exact ⟨c, rest ++ b.data, by simp [String.data_append, h], hc⟩

theorem rawLine_head {R : Type} (fmt : R → String) (tile : ParticleTile R) (i : Nat) :
    ∃ c rest, (rawLine fmt tile i).data = c :: rest ∧ c ≠ 'i' ∧ c ≠ 's' := by
  unfold rawLine
  simp only [String.append_assoc]
  exact head_append _ _ (natToString_head _)

theorem invariantLine_head {R : Type} (fmt : R → String) (nli : NonlinearLensInvariants R)
    (q : R × R × R × R) (tile : ParticleTile R) (i : Nat) :
    ∃ c rest, (invariantLine fmt nli q tile i).data = c :: rest ∧ c ≠ 'i' ∧ c ≠ 's' := by
  unfold invariantLine
  simp only [String.append_assoc]
  exact head_append _ _ (natToString_head _)

theorem refLine_head {R : Type} (fmt : R → String) (step : Int) (ref_part : RefPart R) :
    ∃ c rest, (refLine fmt step ref_part).data = c :: rest ∧ c ≠ 'i' ∧ c ≠ 's' := by
  unfold refLine
  simp only [String.append_assoc]
  exact head_append _ _ (intToString_head _)

/-- No data line is a header text. -/
theorem headerText_not_mem_dataLines {R : Type} (fmt : R → String) (nli : NonlinearLensInvariants R)
    (pc : ImpactXParticleContainer R) (otype : OutputType) (step : Int) (q : R × R × R × R)
    (m : OutputType) (hm : ∀ raw, m ≠ OutputType.unlisted raw) :
    headerText m ∉ dataLines fmt nli pc otype step q := by
  intro hmem
  unfold dataLines at hmem
  obtain ⟨lev, -, hmem⟩ := List.mem_flatMap.mp hmem
  obtain ⟨tile, -, hmem⟩ := List.mem_flatMap.mp hmem
  cases otype with
  | PrintParticles =>
    obtain ⟨i, -, hi⟩ := List.mem_map.mp hmem
    obtain ⟨c, rest, h, h1, h2⟩ := rawLine_head fmt tile i
    exact ne_headerText_of_head _ c rest h h1 h2 m hm hi
  | PrintNonlinearLensInvariants =>
    obtain ⟨i, -, hi⟩ := List.mem_map.mp hmem
    obtain ⟨c, rest, h, h1, h2⟩ := invariantLine_head fmt nli q tile i
    exact ne_headerText_of_head _ c rest h h1 h2 m hm hi
  | PrintRefParticle =>
    have hi := List.mem_singleton.mp hmem
    obtain ⟨c, rest, h, h1, h2⟩ := refLine_head fmt step pc.refParticle
    exact ne_headerText_of_head _ c rest h h1 h2 m hm hi.symm
  | unlisted raw => simp [tileLines] at hmem

theorem dataLines_length_raw {R : Type} (fmt : R → String) (nli : NonlinearLensInvariants R)
    (pc : ImpactXParticleContainer R) (step : Int) (q : R × R × R × R) :
    (dataLines fmt nli pc OutputType.PrintParticles step q).length = totalParticles pc := by
  unfold dataLines totalParticles
  rw [length_flatMap_sum]
  congr 1
  apply List.map_congr_left
  intro lev _
  rw [length_flatMap_sum]
  simp [tileLines]

theorem dataLines_length_invariant {R : Type} (fmt : R → String) (nli : NonlinearLensInvariants R)
    (pc : ImpactXParticleContainer R) (step : Int) (q : R × R × R × R) :
    (dataLines fmt nli pc OutputType.PrintNonlinearLensInvariants step q).length
      = totalParticles pc := by
  unfold dataLines totalParticles
  rw [length_flatMap_sum]
  congr 1
  apply List.map_congr_left
  intro lev _
  rw [length_flatMap_sum]
  simp [tileLines]

theorem dataLines_refParticle {R : Type} (fmt : R → String) (nli : NonlinearLensInvariants R)
    (pc : ImpactXParticleContainer R) (step : Int) (q : R × R × R × R) :
    dataLines fmt nli pc OutputType.PrintRefParticle step q
      = List.replicate (tilesVisited pc) (refLine fmt step pc.refParticle) := by
  have h1 : ∀ l : List (ParticleTile R),
      l.flatMap (tileLines fmt nli pc.refParticle OutputType.PrintRefParticle step q)
        = List.replicate l.length (refLine fmt step pc.refParticle) := by
    intro l
    induction l with
    | nil => simp
    | cons a rest ih => simp [List.flatMap_cons, ih, tileLines, List.replicate_succ]
  simp only [dataLines, h1, tilesVisited]
  exact flatMap_replicate _ _ _

theorem dataLines_unlisted {R : Type} (fmt : R → String) (nli : NonlinearLensInvariants R)
    (pc : ImpactXParticleContainer R) (raw : Int) (step : Int) (q : R × R × R × R) :
    dataLines fmt nli pc (OutputType.unlisted raw) step q = [] := by
  simp [dataLines, tileLines]

/-- What a call leaves behind: it returns, and the file holds its former bytes
followed by the texts of the stream. -/
theorem DiagnosticOutput_eq {R : Type} [OfScientific R] (fmt : R → String) (nli : NonlinearLensInvariants R)
    (pc : ImpactXParticleContainer R) (otype : OutputType) (file_name : String)
    (step : Int) (append : Bool) (w : Runtime R) :
    DiagnosticOutput fmt nli pc otype file_name step append w
      = Except.ok
          { files := Function.update w.files file_name
              (w.files file_name
                ++ String.join (linesWritten fmt nli pc otype file_name step append w.parms))
            parms := (DiagnosticOutput.body fmt nli pc otype file_name step append w.parms).2 } := by
  unfold DiagnosticOutput linesWritten AllPrintToFile.close
  simp only [body_fst]


theorem headerLines_true (otype : OutputType) : headerLines otype true = [] := rfl

theorem headerLines_false (otype : OutputType) (hm : ∀ raw, otype ≠ OutputType.unlisted raw) :
    headerLines otype false = [headerText otype] := by
  cases otype with
  | unlisted raw => exact absurd rfl (hm raw)
  | _ => rfl

theorem named_of_cases (otype : OutputType)
    (h : otype = OutputType.PrintParticles ∨ otype = OutputType.PrintNonlinearLensInvariants
      ∨ otype = OutputType.PrintRefParticle) : ∀ raw, otype ≠ OutputType.unlisted raw := by
  intro raw hr
  subst hr
  simp at h

/-- With an unlisted mode value the call returns and leaves everything as it
was. -/
theorem DiagnosticOutput_unlisted {R : Type} [OfScientific R] (fmt : R → String)
    (nli : NonlinearLensInvariants R) (pc : ImpactXParticleContainer R) (raw : Int)
    (file_name : String) (step : Int) (append : Bool) (w : Runtime R) :
    DiagnosticOutput fmt nli pc (OutputType.unlisted raw) file_name step append w
      = Except.ok w := by
  rw [DiagnosticOutput_eq, linesWritten_eq, dataLines_unlisted,
    body_snd_of_ne _ _ _ _ _ _ _ _ (by simp)]
  have hh : headerLines (OutputType.unlisted raw) append = [] := by
    cases append <;> rfl
  rw [hh]
  simp [String.join]

/-! ## Claims -/

/-- C1, the routine at the failing input: in reference mode a container of one
level with two tiles of one particle each gets two reference-particle data
lines from one call, one per tile, where the claim has exactly one. -/
theorem refParticle_mode_two_tiles_two_lines :
    totalParticles twoTileContainer = 2
      ∧ linesWritten Decimal.render exampleCalc twoTileContainer OutputType.PrintRefParticle
          "ref_particle" 5 false freshRuntime.parms
        = ["step s x y z t px py pz pt\n", "5 10 0 0 5 0 0 0 1 0\n", "5 10 0 0 5 0 0 0 1 0\n"] := by
  decide

/-- C2: in raw-dump mode and in invariant mode a call returns, the file holds
its former bytes followed by the texts written, the texts written without
`append` are the header followed by the texts written with `append`, and the
latter (the data lines) are as many as the particles of all levels
`0..finestLevel` and all their tiles. -/
theorem particle_modes_line_count {R : Type} [OfScientific R] (fmt : R → String)
    (nli : NonlinearLensInvariants R) (pc : ImpactXParticleContainer R) (otype : OutputType)
    (file_name : String) (step : Int) (append : Bool) (w : Runtime R)
    (h : otype = OutputType.PrintParticles ∨ otype = OutputType.PrintNonlinearLensInvariants) :
    (∃ w1, DiagnosticOutput fmt nli pc otype file_name step append w = Except.ok w1
        ∧ w1.files file_name = w.files file_name
            ++ String.join (linesWritten fmt nli pc otype file_name step append w.parms))
      ∧ linesWritten fmt nli pc otype file_name step false w.parms
          = headerText otype :: linesWritten fmt nli pc otype file_name step true w.parms
      ∧ (linesWritten fmt nli pc otype file_name step true w.parms).length
          = totalParticles pc := by
  refine ⟨⟨_, DiagnosticOutput_eq fmt nli pc otype file_name step append w, by simp⟩, ?_, ?_⟩
  · rw [linesWritten_eq, linesWritten_eq, headerLines_true, headerLines_false]
    · rfl
    · rcases h with h | h <;> subst h <;> simp
  · rw [linesWritten_eq, headerLines_true]
    rcases h with h | h <;> subst h
    · simpa using dataLines_length_raw fmt nli pc step _
    · simpa using dataLines_length_invariant fmt nli pc step _

theorem particle_modes_line_count_witness :
    (OutputType.PrintParticles = OutputType.PrintParticles
        ∨ OutputType.PrintParticles = OutputType.PrintNonlinearLensInvariants)
      ∧ ((∃ w1, DiagnosticOutput Decimal.render exampleCalc gapContainer
            OutputType.PrintParticles "out" 5 false freshRuntime = Except.ok w1
          ∧ w1.files "out" = freshRuntime.files "out"
              ++ String.join (linesWritten Decimal.render exampleCalc gapContainer
                  OutputType.PrintParticles "out" 5 false freshRuntime.parms))
        ∧ linesWritten Decimal.render exampleCalc gapContainer OutputType.PrintParticles
            "out" 5 false freshRuntime.parms
          = headerText OutputType.PrintParticles
            :: linesWritten Decimal.render exampleCalc gapContainer OutputType.PrintParticles
                "out" 5 true freshRuntime.parms
        ∧ (linesWritten Decimal.render exampleCalc gapContainer OutputType.PrintParticles
            "out" 5 true freshRuntime.parms).length = totalParticles gapContainer) :=
  ⟨by decide, particle_modes_line_count Decimal.render exampleCalc gapContainer
    OutputType.PrintParticles "out" 5 false freshRuntime (by decide)⟩

/-- C3: for each of the three modes, the texts a call writes without `append`
are the header text of the mode followed by the texts it writes with `append`;
no text written with `append` is a header text of any mode, so the header
occurs exactly once without `append` and not at all with it; the header texts
are the three of the file format. -/
theorem header_iff_not_append {R : Type} [OfScientific R] (fmt : R → String)
    (nli : NonlinearLensInvariants R) (pc : ImpactXParticleContainer R) (otype : OutputType)
    (file_name : String) (step : Int) (parms : ParmTable R)
    (h : otype = OutputType.PrintParticles ∨ otype = OutputType.PrintNonlinearLensInvariants
      ∨ otype = OutputType.PrintRefParticle) :
    linesWritten fmt nli pc otype file_name step false parms
        = headerText otype :: linesWritten fmt nli pc otype file_name step true parms
      ∧ headerText OutputType.PrintParticles
          ∉ linesWritten fmt nli pc otype file_name step true parms
      ∧ headerText OutputType.PrintNonlinearLensInvariants
          ∉ linesWritten fmt nli pc otype file_name step true parms
      ∧ headerText OutputType.PrintRefParticle
          ∉ linesWritten fmt nli pc otype file_name step true parms
      ∧ (linesWritten fmt nli pc otype file_name step false parms).count (headerText otype) = 1
      ∧ (linesWritten fmt nli pc otype file_name step true parms).count (headerText otype) = 0
      ∧ headerText OutputType.PrintParticles = "id x y t px py pt\n"
      ∧ headerText OutputType.PrintNonlinearLensInvariants = "id H I\n"
      ∧ headerText OutputType.PrintRefParticle = "step s x y z t px py pz pt\n" := by
  have hm := named_of_cases otype h
  have hfalse : linesWritten fmt nli pc otype file_name step false parms
      = headerText otype :: linesWritten fmt nli pc otype file_name step true parms := by
    rw [linesWritten_eq, linesWritten_eq, headerLines_true, headerLines_false otype hm]
    rfl
  have hnot : ∀ m, (∀ raw, m ≠ OutputType.unlisted raw) →
      headerText m ∉ linesWritten fmt nli pc otype file_name step true parms := by
    intro m hmm
    rw [linesWritten_eq, headerLines_true]
    simpa using headerText_not_mem_dataLines fmt nli pc otype step _ m hmm
  have hzero := List.count_eq_zero_of_not_mem (hnot otype hm)
  refine ⟨hfalse, hnot _ (by simp), hnot _ (by simp), hnot _ (by simp), ?_, hzero, rfl, rfl, rfl⟩
  rw [hfalse, List.count_cons_self, hzero]

theorem header_iff_not_append_witness :
    (OutputType.PrintRefParticle = OutputType.PrintParticles
        ∨ OutputType.PrintRefParticle = OutputType.PrintNonlinearLensInvariants
        ∨ OutputType.PrintRefParticle = OutputType.PrintRefParticle)
      ∧ (linesWritten Decimal.render exampleCalc exampleContainer OutputType.PrintRefParticle
            "out" 5 false freshRuntime.parms).count (headerText OutputType.PrintRefParticle) = 1 :=
  ⟨by decide, (header_iff_not_append Decimal.render exampleCalc exampleContainer
    OutputType.PrintRefParticle "out" 5 freshRuntime.parms (by decide)).2.2.2.2.1⟩

/-- C4 as stated fails: with the mode value `unlisted 3`, which is none of the
three named modes, the call is not rejected; it returns normally, having
written nothing. -/
theorem unlisted_mode_is_not_rejected :
    (OutputType.unlisted 3 ≠ OutputType.PrintParticles
        ∧ OutputType.unlisted 3 ≠ OutputType.PrintNonlinearLensInvariants
        ∧ OutputType.unlisted 3 ≠ OutputType.PrintRefParticle)
      ∧ DiagnosticOutput Decimal.render exampleCalc exampleContainer (OutputType.unlisted 3)
          "out" 5 false freshRuntime = Except.ok freshRuntime
      ∧ ¬ ∃ e, DiagnosticOutput Decimal.render exampleCalc exampleContainer
          (OutputType.unlisted 3) "out" 5 false freshRuntime = Except.error e := by
  refine ⟨by decide, DiagnosticOutput_unlisted _ _ _ _ _ _ _ _, ?_⟩
  rintro ⟨e, he⟩
  rw [DiagnosticOutput_unlisted] at he
  cases he

/-- C4 amended: for a mode value that is none of the three named modes the call
writes no header and no data line and returns normally, files and
configuration left as they were. -/
theorem unlisted_mode_writes_nothing {R : Type} [OfScientific R] (fmt : R → String)
    (nli : NonlinearLensInvariants R) (pc : ImpactXParticleContainer R) (otype : OutputType)
    (file_name : String) (step : Int) (append : Bool) (w : Runtime R)
    (h1 : otype ≠ OutputType.PrintParticles)
    (h2 : otype ≠ OutputType.PrintNonlinearLensInvariants)
    (h3 : otype ≠ OutputType.PrintRefParticle) :
    linesWritten fmt nli pc otype file_name step append w.parms = []
      ∧ DiagnosticOutput fmt nli pc otype file_name step append w = Except.ok w := by
  cases otype with
  | PrintParticles => exact absurd rfl h1
  | PrintNonlinearLensInvariants => exact absurd rfl h2
  | PrintRefParticle => exact absurd rfl h3
  | unlisted raw =>
    refine ⟨?_, DiagnosticOutput_unlisted fmt nli pc raw file_name step append w⟩
    rw [linesWritten_eq, dataLines_unlisted]
    cases append <;> rfl

theorem unlisted_mode_writes_nothing_witness :
    (OutputType.unlisted 7 ≠ OutputType.PrintParticles
        ∧ OutputType.unlisted 7 ≠ OutputType.PrintNonlinearLensInvariants
        ∧ OutputType.unlisted 7 ≠ OutputType.PrintRefParticle)
      ∧ (linesWritten Decimal.render exampleCalc twoTileContainer (OutputType.unlisted 7)
            "out" 5 false freshRuntime.parms = []
        ∧ DiagnosticOutput Decimal.render exampleCalc twoTileContainer (OutputType.unlisted 7)
            "out" 5 false freshRuntime = Except.ok freshRuntime) :=
  ⟨by decide, unlisted_mode_writes_nothing Decimal.render exampleCalc twoTileContainer
    (OutputType.unlisted 7) "out" 5 false freshRuntime (by decide) (by decide) (by decide)⟩

/-- C5: in raw-dump mode the texts a call writes are the header (unless
appending) followed by the raw-dump lines of the container in traversal order:
levels `0..finestLevel` ascending, tiles of each level in container order,
particle indices `0..np-1` ascending. The one-particle container of the
specification gives the header and the line of that particle, also when an
empty tile precedes the particle's tile. -/
theorem raw_dump_lines_in_traversal_order :
    (∀ (R : Type) [OfScientific R] (fmt : R → String) (nli : NonlinearLensInvariants R)
        (pc : ImpactXParticleContainer R) (file_name : String) (step : Int) (append : Bool)
        (parms : ParmTable R),
        linesWritten fmt nli pc OutputType.PrintParticles file_name step append parms
          = (if append then [] else ["id x y t px py pt\n"]) ++ rawDumpLines fmt pc)
      ∧ localIDtoGlobal 3 2 = 8589934595
      ∧ linesWritten Decimal.render exampleCalc exampleContainer OutputType.PrintParticles
          "out" 5 false freshRuntime.parms
        = ["id x y t px py pt\n", "8589934595 1 2 0 0.1 0.2 0.3\n"]
      ∧ linesWritten Decimal.render exampleCalc gapContainer OutputType.PrintParticles
          "out" 5 false freshRuntime.parms
        = ["id x y t px py pt\n", "8589934595 1 2 0 0.1 0.2 0.3\n"]
      ∧ (DiagnosticOutput Decimal.render exampleCalc exampleContainer OutputType.PrintParticles
          "out" 5 false freshRuntime).map (fun w => w.files "out")
        = Except.ok "id x y t px py pt\n8589934595 1 2 0 0.1 0.2 0.3\n" := by
  refine ⟨?_, by decide, by decide, by decide, rfl⟩
  intro R _ fmt nli pc file_name step append parms
  rw [linesWritten_eq]
  cases append <;> rfl

/-- C6: in invariant mode the texts a call writes are the header (unless
appending) followed, in traversal order, by one line "global id, H, I" per
particle, where `(H, I)` is the calculator applied to the particle's
`(x, y, px, py)` under one parameter tuple for the whole call: each of alpha,
beta, tn, cn is the value stored in the "diag" configuration, or 0.0, 1.0, 0.4,
0.01 when absent. Two particles with identical `(x, y, px, py)` get identical
`(H, I)`. -/
theorem invariant_lines_share_parameters {R : Type} [OfScientific R] (fmt : R → String)
    (nli : NonlinearLensInvariants R) (pc : ImpactXParticleContainer R)
    (file_name : String) (step : Int) (append : Bool) (parms : ParmTable R)
    (tile1 tile2 : ParticleTile R) (i j : Nat)
    (hx : (tile1.aos i).pos 0 = (tile2.aos j).pos 0)
    (hy : (tile1.aos i).pos 1 = (tile2.aos j).pos 1)
    (hpx : tile1.soa_real RealSoA.ux i = tile2.soa_real RealSoA.ux j)
    (hpy : tile1.soa_real RealSoA.uy i = tile2.soa_real RealSoA.uy j) :
    linesWritten fmt nli pc OutputType.PrintNonlinearLensInvariants file_name step append parms
        = (if append then [] else ["id H I\n"])
          ++ invariantLines fmt nli
              ((parms "diag.alpha").getD 0.0, (parms "diag.beta").getD 1.0,
                (parms "diag.tn").getD 0.4, (parms "diag.cn").getD 0.01) pc
      ∧ invariantsOf nli
          ((parms "diag.alpha").getD 0.0, (parms "diag.beta").getD 1.0,
            (parms "diag.tn").getD 0.4, (parms "diag.cn").getD 0.01) tile1 i
        = invariantsOf nli
          ((parms "diag.alpha").getD 0.0, (parms "diag.beta").getD 1.0,
            (parms "diag.tn").getD 0.4, (parms "diag.cn").getD 0.01) tile2 j := by
  constructor
  · rw [linesWritten_eq]
    cases append <;> rfl
  · unfold invariantsOf
    rw [hx, hy, hpx, hpy]

theorem invariant_lines_share_parameters_witness :
    linesWritten Decimal.render exampleCalc twoTileContainer
        OutputType.PrintNonlinearLensInvariants "out" 5 false freshRuntime.parms
        = (if false then [] else ["id H I\n"])
          ++ invariantLines Decimal.render exampleCalc
              ((freshRuntime.parms "diag.alpha").getD 0.0,
                (freshRuntime.parms "diag.beta").getD 1.0,
                (freshRuntime.parms "diag.tn").getD 0.4,
                (freshRuntime.parms "diag.cn").getD 0.01) twoTileContainer
      ∧ invariantsOf exampleCalc
          ((freshRuntime.parms "diag.alpha").getD 0.0, (freshRuntime.parms "diag.beta").getD 1.0,
            (freshRuntime.parms "diag.tn").getD 0.4, (freshRuntime.parms "diag.cn").getD 0.01)
          exampleTile 0
        = invariantsOf exampleCalc
          ((freshRuntime.parms "diag.alpha").getD 0.0, (freshRuntime.parms "diag.beta").getD 1.0,
            (freshRuntime.parms "diag.tn").getD 0.4, (freshRuntime.parms "diag.cn").getD 0.01)
          emptyTile 0 :=
  invariant_lines_share_parameters Decimal.render exampleCalc twoTileContainer "out" 5 false
    freshRuntime.parms exampleTile emptyTile 0 0 rfl rfl rfl rfl

/-- C7 as stated fails: two calls in a row without `append`, same inputs and
same path, leave the file with the header and the data line twice, which is not
what one call leaves. -/
theorem second_run_appends_again :
    (DiagnosticOutput Decimal.render exampleCalc exampleContainer OutputType.PrintParticles
          "out" 5 false freshRuntime).map (fun w => w.files "out")
        = Except.ok "id x y t px py pt\n8589934595 1 2 0 0.1 0.2 0.3\n"
      ∧ ((DiagnosticOutput Decimal.render exampleCalc exampleContainer OutputType.PrintParticles
            "out" 5 false freshRuntime).bind
          (DiagnosticOutput Decimal.render exampleCalc exampleContainer
            OutputType.PrintParticles "out" 5 false)).map (fun w => w.files "out")
        = Except.ok ("id x y t px py pt\n8589934595 1 2 0 0.1 0.2 0.3\n"
            ++ "id x y t px py pt\n8589934595 1 2 0 0.1 0.2 0.3\n")
      ∧ ((DiagnosticOutput Decimal.render exampleCalc exampleContainer OutputType.PrintParticles
            "out" 5 false freshRuntime).bind
          (DiagnosticOutput Decimal.render exampleCalc exampleContainer
            OutputType.PrintParticles "out" 5 false)).map (fun w => w.files "out")
        ≠ (DiagnosticOutput Decimal.render exampleCalc exampleContainer
            OutputType.PrintParticles "out" 5 false freshRuntime).map (fun w => w.files "out") := by
  have h1 : (DiagnosticOutput Decimal.render exampleCalc exampleContainer
      OutputType.PrintParticles "out" 5 false freshRuntime).map (fun w => w.files "out")
      = Except.ok "id x y t px py pt\n8589934595 1 2 0 0.1 0.2 0.3\n" := rfl
  have h2 : ((DiagnosticOutput Decimal.render exampleCalc exampleContainer
      OutputType.PrintParticles "out" 5 false freshRuntime).bind
        (DiagnosticOutput Decimal.render exampleCalc exampleContainer
          OutputType.PrintParticles "out" 5 false)).map (fun w => w.files "out")
      = Except.ok ("id x y t px py pt\n8589934595 1 2 0 0.1 0.2 0.3\n"
          ++ "id x y t px py pt\n8589934595 1 2 0 0.1 0.2 0.3\n") := rfl
  refine ⟨h1, h2, ?_⟩
  rw [h1, h2]
  intro h
  exact absurd (Except.ok.inj h) (by decide)

/-- C7 amended: two calls in a row without `append`, same inputs and same path,
both return, and each appends the same bytes to the file: after the first call
the file holds its former bytes followed by the texts of the call, after the
second call these followed by the same texts once more. -/
theorem second_run_appends_same_bytes {R : Type} [OfScientific R] (fmt : R → String)
    (nli : NonlinearLensInvariants R) (pc : ImpactXParticleContainer R) (otype : OutputType)
    (file_name : String) (step : Int) (w : Runtime R) :
    ∃ w1 w2, DiagnosticOutput fmt nli pc otype file_name step false w = Except.ok w1
      ∧ DiagnosticOutput fmt nli pc otype file_name step false w1 = Except.ok w2
      ∧ w1.files file_name = w.files file_name
          ++ String.join (linesWritten fmt nli pc otype file_name step false w.parms)
      ∧ w2.files file_name = w1.files file_name
          ++ String.join (linesWritten fmt nli pc otype file_name step false w.parms) := by
  refine ⟨_, _, DiagnosticOutput_eq fmt nli pc otype file_name step false w,
    DiagnosticOutput_eq fmt nli pc otype file_name step false _, by simp, ?_⟩
  simp only [Function.update_same]
  rw [linesWritten_eq fmt nli pc otype file_name step false
      (DiagnosticOutput.body fmt nli pc otype file_name step false w.parms).2,
    body_parms, ← linesWritten_eq]

/-- Where the zero-particle property holds: for a container whose total particle
count is zero, in raw-dump mode and in invariant mode, and in reference mode
when the levels `0..finestLevel` hold no tile, a call writes nothing with
`append` and only the header line without it, and the file gets exactly these
texts. -/
theorem zero_particles_header_only {R : Type} [OfScientific R] (fmt : R → String)
    (nli : NonlinearLensInvariants R) (pc : ImpactXParticleContainer R) (otype : OutputType)
    (file_name : String) (step : Int) (append : Bool) (w : Runtime R)
    (hm : otype = OutputType.PrintParticles ∨ otype = OutputType.PrintNonlinearLensInvariants
      ∨ otype = OutputType.PrintRefParticle)
    (h0 : totalParticles pc = 0)
    (href : otype = OutputType.PrintRefParticle → tilesVisited pc = 0) :
    linesWritten fmt nli pc otype file_name step append w.parms
        = (if append then [] else [headerText otype])
      ∧ ∃ w1, DiagnosticOutput fmt nli pc otype file_name step append w = Except.ok w1
          ∧ w1.files file_name
            = w.files file_name ++ (if append then "" else headerText otype) := by
  have hdata : dataLines fmt nli pc otype step (invariantParms w.parms) = [] := by
    rcases hm with h | h | h
    · subst h
      exact List.length_eq_zero.mp ((dataLines_length_raw fmt nli pc step _).trans h0)
    · subst h
      exact List.length_eq_zero.mp ((dataLines_length_invariant fmt nli pc step _).trans h0)
    · subst h
      rw [dataLines_refParticle, href rfl]
      rfl
  have hlines : linesWritten fmt nli pc otype file_name step append w.parms
      = (if append then [] else [headerText otype]) := by
    rw [linesWritten_eq, hdata, List.append_nil]
    cases append
    · simpa using headerLines_false otype (named_of_cases otype hm)
    · rfl
  refine ⟨hlines, _, DiagnosticOutput_eq fmt nli pc otype file_name step append w, ?_⟩
  simp only [Function.update_same, hlines]
  cases append <;> simp [String.join]

theorem zero_particles_header_only_witness :
    (OutputType.PrintNonlinearLensInvariants = OutputType.PrintParticles
        ∨ OutputType.PrintNonlinearLensInvariants = OutputType.PrintNonlinearLensInvariants
        ∨ OutputType.PrintNonlinearLensInvariants = OutputType.PrintRefParticle)
      ∧ totalParticles emptyTileContainer = 0
      ∧ linesWritten Decimal.render exampleCalc emptyTileContainer
          OutputType.PrintNonlinearLensInvariants "out" 5 false freshRuntime.parms
        = (if false then [] else [headerText OutputType.PrintNonlinearLensInvariants]) :=
  ⟨by decide, by decide, (zero_particles_header_only Decimal.render exampleCalc
    emptyTileContainer OutputType.PrintNonlinearLensInvariants "out" 5 false freshRuntime
    (by decide) (by decide) (by decide)).1⟩

/-- C10: in reference mode the texts a call writes are the header (unless
appending) followed by as many copies of one and the same line as there are
tiles in the levels `0..finestLevel`, whatever the tiles hold; the line is
built from the step argument and the reference particle of the container. -/
theorem refParticle_line_for_every_tile {R : Type} [OfScientific R] (fmt : R → String)
    (nli : NonlinearLensInvariants R) (pc : ImpactXParticleContainer R)
    (file_name : String) (step : Int) (append : Bool) (parms : ParmTable R) :
    linesWritten fmt nli pc OutputType.PrintRefParticle file_name step append parms
        = (if append then [] else ["step s x y z t px py pz pt\n"])
          ++ List.replicate (tilesVisited pc)
              (toString step ++ " " ++ fmt pc.refParticle.s ++ " "
                ++ fmt pc.refParticle.x ++ " " ++ fmt pc.refParticle.y ++ " "
                ++ fmt pc.refParticle.z ++ " " ++ fmt pc.refParticle.t ++ " "
                ++ fmt pc.refParticle.px ++ " " ++ fmt pc.refParticle.py ++ " "
                ++ fmt pc.refParticle.pz ++ " " ++ fmt pc.refParticle.pt ++ "\n")
      ∧ (linesWritten fmt nli pc OutputType.PrintRefParticle file_name step true parms).length
        = tilesVisited pc := by
  constructor
  · rw [linesWritten_eq, dataLines_refParticle]
    cases append <;> rfl
  · rw [linesWritten_eq, dataLines_refParticle]
    simp [headerLines]

end impactx
